import Mathlib

/-!
Verification of the snowflake-identifier and self-describing enum codec of
the `discord2` crate, shallowly embedded from the Rust source.

Source files embedded:
  * `src/enums.rs`        — `StringEnum<T>` / `IntegerEnum<T>` wrappers and
                             their error types;
  * `src/resources/guild.rs` — `GuildFeature` and its `FromStr` / `AsRef<str>`;
  * `src/audit_log.rs`    — `AuditLogEvent` and its `TryFrom<u64>` / `From` to `u64`;
  * `src/permissions.rs`  — `Permissions` bitflags and `FromStr`;
  * `src/snowflake.rs`    — the `Snowflake` trait operations, `Id<For>`, `AnyId`,
                             decimal rendering/parsing and string-or-integer decoding.

`u64` is modelled as `Nat`, with reduction `% 2 ^ 64` written exactly where the
Rust operation can overflow/truncate; fallible Rust code becomes `Option` or
`Except`; JSON primitives relevant to the codec become an explicit `Json` type.
-/

namespace Discord2

/-- Embeds `EnumFromIntegerError` of `src/enums.rs`: carries the raw `u64`. -/
structure EnumFromIntegerError where
  raw : Nat
deriving DecidableEq, Repr

/-- Embeds `ParseEnumError` of `src/enums.rs`: carries the raw `String`. -/
structure ParseEnumError where
  raw : String
deriving DecidableEq, Repr

/-- Embeds `Inner<T, String>` inside `StringEnum<T>` of `src/enums.rs`:
either a successfully parsed variant or the raw wire string. -/
inductive StringEnum (T : Type) where
  | parsed : T → StringEnum T
  | raw : String → StringEnum T
deriving DecidableEq, Repr

namespace StringEnum

/-- Embeds `StringEnum::custom` (`src/enums.rs`): wraps the string as raw. -/
def custom {T : Type} (s : String) : StringEnum T :=
  .raw s

/-- Embeds `StringEnum::try_unwrap` (`src/enums.rs`). -/
def tryUnwrap {T : Type} : StringEnum T → Except ParseEnumError T
  | .raw s => .error ⟨s⟩
  | .parsed t => .ok t

/-- Embeds `Deserialize for StringEnum<T>` (`src/enums.rs`): decode the wire
string with `T::from_str`; on failure keep the raw string.  The `fromStr`
argument stands for the `T : FromStr` bound. -/
def deserialize {T E : Type} (fromStr : String → Except E T) (s : String) :
    StringEnum T :=
  match fromStr s with
  | .ok t => .parsed t
  | .error _ => .raw s

/-- Embeds `Serialize for StringEnum<T>` (`src/enums.rs`): a parsed variant
serializes through `T : AsRef<str>` (the `asRef` argument), a raw value
serializes verbatim. -/
def serialize {T : Type} (asRef : T → String) : StringEnum T → String
  | .parsed t => asRef t
  | .raw s => s

end StringEnum

/-- Embeds `Inner<T, u64>` inside `IntegerEnum<T>` of `src/enums.rs`. -/
inductive IntegerEnum (T : Type) where
  | parsed : T → IntegerEnum T
  | raw : Nat → IntegerEnum T
deriving DecidableEq, Repr

namespace IntegerEnum

/-- Embeds `IntegerEnum::custom` (`src/enums.rs`): wraps the integer as raw. -/
def custom {T : Type} (value : Nat) : IntegerEnum T :=
  .raw value

/-- Embeds `IntegerEnum::try_unwrap` (`src/enums.rs`). -/
def tryUnwrap {T : Type} : IntegerEnum T → Except EnumFromIntegerError T
  | .raw n => .error ⟨n⟩
  | .parsed t => .ok t

/-- Embeds `Deserialize for IntegerEnum<T>` (`src/enums.rs`): decode the wire
`u64` with `T::try_from`; on failure keep the raw integer.  The `tryFrom`
argument stands for the `T : TryFrom<u64>` bound. -/
def deserialize {T E : Type} (tryFrom : Nat → Except E T) (raw : Nat) :
    IntegerEnum T :=
  match tryFrom raw with
  | .ok t => .parsed t
  | .error _ => .raw raw

/-- Embeds `Serialize for IntegerEnum<T>` and `From<IntegerEnum<T>> for u64`
(`src/enums.rs`): a parsed variant serializes through `T : Into<u64>` (the
`toWire` argument), a raw value serializes verbatim. -/
def serialize {T : Type} (toWire : T → Nat) : IntegerEnum T → Nat
  | .parsed t => toWire t
  | .raw n => n

end IntegerEnum

/-- Embeds `GuildFeature` of `src/resources/guild.rs`. -/
inductive GuildFeature where
  | animatedIcon
  | banner
  | commerce
  | community
  | discoverable
  | featurable
  | inviteSplash
  | memberVerificationGateEnabled
  | news
  | partnered
  | previewEnabled
  | vanityUrl
  | verified
  | vipRegions
  | welcomeScreenEnabled
deriving DecidableEq, Repr

namespace GuildFeature

/-- Embeds `FromStr for GuildFeature` (`src/resources/guild.rs`). -/
def fromStr (s : String) : Except ParseEnumError GuildFeature :=
  match s with
  | "ANIMATED_ICON" => .ok .animatedIcon
  | "BANNER" => .ok .banner
  | "COMMERCE" => .ok .commerce
  | "COMMUNITY" => .ok .community
  | "DISCOVERABLE" => .ok .discoverable
  | "FEATURABLE" => .ok .featurable
  | "INVITE_SPLASH" => .ok .inviteSplash
  | "MEMBER_VERIFICATION_GATE_ENABLED" => .ok .memberVerificationGateEnabled
  | "NEWS" => .ok .news
  | "PARTNERED" => .ok .partnered
  | "PREVIEW_ENABLED" => .ok .previewEnabled
  | "VANITY_URL" => .ok .vanityUrl
  | "VERIFIED" => .ok .verified
  | "VIP_REGIONS" => .ok .vipRegions
  | "WELCOME_SCREEN_ENABLED" => .ok .welcomeScreenEnabled
  | other => .error ⟨other⟩

/-- Embeds `AsRef<str> for GuildFeature` (`src/resources/guild.rs`). -/
def asRef : GuildFeature → String
  | .animatedIcon => "ANIMATED_ICON"
  | .banner => "BANNER"
  | .commerce => "COMMERCE"
  | .community => "COMMUNITY"
  | .discoverable => "DISCOVERABLE"
  | .featurable => "FEATURABLE"
  | .inviteSplash => "INVITE_SPLASH"
  | .memberVerificationGateEnabled => "MEMBER_VERIFICATION_GATE_ENABLED"
  | .news => "NEWS"
  | .partnered => "PARTNERED"
  | .previewEnabled => "PREVIEW_ENABLED"
  | .vanityUrl => "VANITY_URL"
  | .verified => "VERIFIED"
  | .vipRegions => "VIP_REGIONS"
  | .welcomeScreenEnabled => "WELCOME_SCREEN_ENABLED"

end GuildFeature

/-- Embeds `AuditLogEvent` of `src/audit_log.rs`. -/
inductive AuditLogEvent where
  | guildUpdate
  | channelCreate
  | channelUpdate
  | channelDelete
  | channelOverwriteCreate
  | channelOverwriteUpdate
  | channelOverwriteDelete
  | memberKick
  | memberPrune
  | memberBanAdd
  | memberBanRemove
  | memberUpdate
  | memberRoleUpdate
  | memberMove
  | memberDisconnect
  | botAdd
  | roleCreate
  | roleUpdate
  | roleDelete
  | inviteCreate
  | inviteUpdate
  | inviteDelete
  | webhookCreate
  | webhookUpdate
  | webhookDelete
  | emojiCreate
  | emojiUpdate
  | emojiDelete
  | messageDelete
  | messageBulkDelete
  | messagePin
  | messageUnpin
  | integrationCreate
  | integrationUpdate
  | integrationDelete
deriving DecidableEq, Repr

namespace AuditLogEvent

/-- Embeds `TryFrom<u64> for AuditLogEvent` (`src/audit_log.rs`). -/
def tryFrom (evt : Nat) : Except EnumFromIntegerError AuditLogEvent :=
  match evt with
  | 1 => .ok .guildUpdate
  | 10 => .ok .channelCreate
  | 11 => .ok .channelUpdate
  | 12 => .ok .channelDelete
  | 13 => .ok .channelOverwriteCreate
  | 14 => .ok .channelOverwriteUpdate
  | 15 => .ok .channelOverwriteDelete
  | 20 => .ok .memberKick
  | 21 => .ok .memberPrune
  | 22 => .ok .memberBanAdd
  | 23 => .ok .memberBanRemove
  | 24 => .ok .memberUpdate
  | 25 => .ok .memberRoleUpdate
  | 26 => .ok .memberMove
  | 27 => .ok .memberDisconnect
  | 28 => .ok .botAdd
  | 30 => .ok .roleCreate
  | 31 => .ok .roleUpdate
  | 32 => .ok .roleDelete
  | 40 => .ok .inviteCreate
  | 41 => .ok .inviteUpdate
  | 42 => .ok .inviteDelete
  | 50 => .ok .webhookCreate
  | 51 => .ok .webhookUpdate
  | 52 => .ok .webhookDelete
  | 60 => .ok .emojiCreate
  | 61 => .ok .emojiUpdate
  | 62 => .ok .emojiDelete
  | 72 => .ok .messageDelete
  | 73 => .ok .messageBulkDelete
  | 74 => .ok .messagePin
  | 75 => .ok .messageUnpin
  | 80 => .ok .integrationCreate
  | 81 => .ok .integrationUpdate
  | 82 => .ok .integrationDelete
  | other => .error ⟨other⟩

/-- Embeds `From<AuditLogEvent> for u64` (`src/audit_log.rs`). -/
def toWire : AuditLogEvent → Nat
  | .guildUpdate => 1
  | .channelCreate => 10
  | .channelUpdate => 11
  | .channelDelete => 12
  | .channelOverwriteCreate => 13
  | .channelOverwriteUpdate => 14
  | .channelOverwriteDelete => 15
  | .memberKick => 20
  | .memberPrune => 21
  | .memberBanAdd => 22
  | .memberBanRemove => 23
  | .memberUpdate => 24
  | .memberRoleUpdate => 25
  | .memberMove => 26
  | .memberDisconnect => 27
  | .botAdd => 28
  | .roleCreate => 30
  | .roleUpdate => 31
  | .roleDelete => 32
  | .inviteCreate => 40
  | .inviteUpdate => 41
  | .inviteDelete => 42
  | .webhookCreate => 50
  | .webhookUpdate => 51
  | .webhookDelete => 52
  | .emojiCreate => 60
  | .emojiUpdate => 61
  | .emojiDelete => 62
  | .messageDelete => 72
  | .messageBulkDelete => 73
  | .messagePin => 74
  | .messageUnpin => 75
  | .integrationCreate => 80
  | .integrationUpdate => 81
  | .integrationDelete => 82

end AuditLogEvent

/-- Decimal digit as a character, `b'0' + d` — the digit characters produced
by the standard decimal rendering `u64 : Display` that the crate uses for
identifiers and bitflag strings. -/
def digitChar (d : Nat) : Char :=
  Char.ofNat (48 + d)

/-- Numeric value of a decimal digit character, `none` for a non-digit —
the per-character step of `u64::from_str`. -/
def charVal (c : Char) : Option Nat :=
  if 48 ≤ c.toNat ∧ c.toNat ≤ 57 then some (c.toNat - 48) else none

/-- Embeds the digit-accumulation loop of `u64::from_str`: consume decimal
digits most significant first, failing on a non-digit or when
`acc * 10 + d` overflows `u64` (the `checked_mul`/`checked_add` path). -/
def parseDigits : Nat → List Char → Option Nat
  | acc, [] => some acc
  | acc, c :: cs =>
    match charVal c with
    | some d =>
        if acc * 10 + d < 2 ^ 64 then parseDigits (acc * 10 + d) cs else none
    | none => none

/-- Embeds `u64::from_str` (used by `FromStr for Id<For>`, the
string-or-integer visitor, and `FromStr for Permissions`): an optional
leading `+`, then one or more decimal digits, no overflow. -/
def u64FromStr (s : List Char) : Option Nat :=
  match s with
  | [] => none
  | c :: rest =>
    if c = '+' then
      match rest with
      | [] => none
      | _ => parseDigits 0 rest
    else parseDigits 0 (c :: rest)

/-- `u64::from_str` on a `String`. -/
def u64FromString (s : String) : Option Nat :=
  u64FromStr s.data

/-- Fuel-driven digit-emission loop of the decimal rendering `u64 : Display`:
emits the digits of `n` most significant first in front of `acc`.  A fuel of
`n + 1` always suffices. -/
def renderLoop : Nat → Nat → List Char → List Char
  | 0, _, acc => acc
  | fuel + 1, n, acc =>
    if n < 10 then digitChar n :: acc
    else renderLoop fuel (n / 10) (digitChar (n % 10) :: acc)

/-- Embeds the canonical decimal rendering `u64 : Display` / `ToString` (used
by `Display for Id<For>` and `Serialize for Id<For>`). -/
def renderNat (n : Nat) : List Char :=
  renderLoop (n + 1) n []

/-- `u64::to_string()` as a `String`. -/
def u64ToString (n : Nat) : String :=
  ⟨renderNat n⟩

/-- Number of decimal digits of `n` (at least one). -/
def numDigits (n : Nat) : Nat :=
  if _h : n < 10 then 1 else numDigits (n / 10) + 1
decreasing_by exact Nat.div_lt_self (by omega) (by norm_num)

namespace Permissions

/-- Embeds `Permissions::all()` of `src/permissions.rs`: the bitwise OR of
every declared flag — bits 0 through 32 and bits 34 through 36 (there is no
flag at bit 33). -/
def allBits : Nat :=
  (1 <<< 0) ||| (1 <<< 1) ||| (1 <<< 2) ||| (1 <<< 3) ||| (1 <<< 4) |||
  (1 <<< 5) ||| (1 <<< 6) ||| (1 <<< 7) ||| (1 <<< 8) ||| (1 <<< 9) |||
  (1 <<< 10) ||| (1 <<< 11) ||| (1 <<< 12) ||| (1 <<< 13) ||| (1 <<< 14) |||
  (1 <<< 15) ||| (1 <<< 16) ||| (1 <<< 17) ||| (1 <<< 18) ||| (1 <<< 19) |||
  (1 <<< 20) ||| (1 <<< 21) ||| (1 <<< 22) ||| (1 <<< 23) ||| (1 <<< 24) |||
  (1 <<< 25) ||| (1 <<< 26) ||| (1 <<< 27) ||| (1 <<< 28) ||| (1 <<< 29) |||
  (1 <<< 30) ||| (1 <<< 31) ||| (1 <<< 32) ||| (1 <<< 34) ||| (1 <<< 35) |||
  (1 <<< 36)

/-- Embeds `Permissions::from_bits` (generated by the `bitflags!` macro in
`src/permissions.rs`): succeeds, keeping the bits, exactly when no bit
outside `all` is set; the complement of `all` in `u64` is `all XOR
(2^64 - 1)`. -/
def fromBits (bits : Nat) : Option Nat :=
  if bits &&& (allBits ^^^ (2 ^ 64 - 1)) = 0 then some bits else none

/-- Embeds `FromStr for Permissions` (`src/permissions.rs`): parse the text
as a `u64`, then `from_bits`; either failure yields `ParseEnumError` carrying
the original text. -/
def fromStr (txt : String) : Except ParseEnumError Nat :=
  match u64FromString txt with
  | none => .error ⟨txt⟩
  | some num =>
    match fromBits num with
    | none => .error ⟨txt⟩
    | some parsed => .ok parsed

end Permissions

/-- The wire codes `TryFrom<u64> for AuditLogEvent` recognizes
(`src/audit_log.rs`): 1, 10–15, 20–28, 30–32, 40–42, 50–52, 60–62, 72–75,
80–82. -/
def auditLogKnownCodes : List Nat :=
  [1, 10, 11, 12, 13, 14, 15,
   20, 21, 22, 23, 24, 25, 26, 27, 28,
   30, 31, 32, 40, 41, 42, 50, 51, 52,
   60, 61, 62, 72, 73, 74, 75, 80, 81, 82]

namespace Snowflake

/-- Embeds `EPOCH` of `src/snowflake.rs`: milliseconds from the Unix epoch to
the platform's custom epoch (2015-01-01T00:00:00Z). -/
def EPOCH : Nat := 1420070400000

/-- Embeds `Snowflake::from_date_time` (`src/snowflake.rs`).  The input is
the calendar instant as `dt.timestamp_millis()`, an `i64` count of
milliseconds since the Unix epoch.  `try_into::<u64>` fails on a negative
count, `checked_sub(EPOCH)` fails below the custom epoch, and the `u64`
left shift `discord_ms << 22` keeps only the low 64 bits of the product. -/
def fromDateTime (ms : Int) : Option Nat :=
  if ms < 0 then none
  else if ms.toNat < EPOCH then none
  else some (((ms.toNat - EPOCH) <<< 22) % 2 ^ 64)

/-- Embeds the millisecond computation of `Snowflake::timestamp`
(`src/snowflake.rs`): `(raw >> 22) + EPOCH`, then handed to
`Utc.timestamp_millis` as an `i64`. -/
def timestampMillis (raw : Nat) : Nat :=
  (raw >>> 22) + EPOCH

/-- Embeds `Snowflake::worker_id` (`src/snowflake.rs`), before the `as u8`
cast: `(raw & 0x3E0000) >> 17`. -/
def workerId (raw : Nat) : Nat :=
  (raw &&& 0x3E0000) >>> 17

/-- Embeds `Snowflake::process_id` (`src/snowflake.rs`), before the `as u8`
cast: `(raw & 0x1F000) >> 12`. -/
def processId (raw : Nat) : Nat :=
  (raw &&& 0x1F000) >>> 12

/-- Embeds `Snowflake::increment` (`src/snowflake.rs`), before the `as u16`
cast: `raw & 0xFFF`. -/
def increment (raw : Nat) : Nat :=
  raw &&& 0xFFF

end Snowflake

/-- Models the civil-calendar arithmetic of `chrono`'s
`Utc.ymd(y, m, d)`: days from the Unix epoch to the given Gregorian date,
by the standard days-from-civil algorithm.  Only used for dates at or after
1970-01-01, where the `Nat` subtraction is exact. -/
def daysFromCivil (y m d : Nat) : Nat :=
  let yv := if m ≤ 2 then y - 1 else y
  let era := yv / 400
  let yoe := yv % 400
  let mp := (m + 9) % 12
  let doy := (153 * mp + 2) / 5 + (d - 1)
  let doe := yoe * 365 + yoe / 4 - yoe / 100 + doy
  era * 146097 + doe - 719468

/-- Models `chrono`'s `Utc.ymd(y, m, d).and_hms_milli(hh, mi, ss, ms)` as
milliseconds since the Unix epoch. -/
def civilToMillis (y m d hh mi ss ms : Nat) : Nat :=
  daysFromCivil y m d * 86400000 + hh * 3600000 + mi * 60000 + ss * 1000 + ms

/-- The `Id<For>` struct of `src/snowflake.rs`: a raw `u64` with a phantom
kind tag.  The tag type parameter is never stored. -/
structure Id (For : Type) where
  id : Nat
deriving DecidableEq, Repr

/-- The `AnyId` struct of `src/snowflake.rs`: the kind-erased identifier. -/
structure AnyId where
  id : Nat
deriving DecidableEq, Repr

namespace Id

/-- Embeds `From<u64> for Id<For>` (`src/snowflake.rs`). -/
def ofU64 {For : Type} (n : Nat) : Id For :=
  ⟨n⟩

/-- Embeds `From<Id<For>> for u64` (`src/snowflake.rs`). -/
def toU64 {For : Type} (x : Id For) : Nat :=
  x.id

/-- Embeds the `educe`-derived `PartialEq` for `Id<For>`
(`src/snowflake.rs`): compares only the `id` field. -/
def beq {For : Type} (a b : Id For) : Bool :=
  a.id == b.id

/-- Embeds the `educe`-derived `Ord` for `Id<For>` (`src/snowflake.rs`):
compares only the `id` field. -/
def cmp {For : Type} (a b : Id For) : Ordering :=
  compare a.id b.id

/-- Embeds the `educe`-derived `Hash` for `Id<For>` (`src/snowflake.rs`):
the data fed to the hasher is exactly the `id` field. -/
def hashData {For : Type} (x : Id For) : Nat :=
  x.id

/-- Embeds `From<Id<T>> for AnyId` (`src/snowflake.rs`). -/
def toAny {For : Type} (x : Id For) : AnyId :=
  ⟨x.id⟩

/-- Embeds `FromStr for Id<For>` (`src/snowflake.rs`): `txt.parse::<u64>()`. -/
def fromStr {For : Type} (txt : String) : Option (Id For) :=
  (u64FromString txt).map fun n => ⟨n⟩

end Id

namespace AnyId

/-- Embeds `From<AnyId> for Id<T>` (`src/snowflake.rs`). -/
def toId {For : Type} (x : AnyId) : Id For :=
  ⟨x.id⟩

end AnyId

/-- The JSON primitives relevant to identifier (de)serialization: a string or
an integer number. -/
inductive Json where
  | str : String → Json
  | int : Int → Json
deriving DecidableEq, Repr

/-- Embeds the `StringOrInteger` visitor of `src/snowflake.rs` as invoked by
`deserialize_any`: `visit_str` parses the decimal string with
`u64::from_str`; `visit_u64` passes the value through; the signed visitors
(`visit_i64` etc.) succeed exactly on values `try_into::<u64>` accepts, that
is non-negative ones (an integer ≥ 2^64 is not representable in the serde
integer model at all). -/
def stringOrInteger : Json → Option Nat
  | .str s => u64FromString s
  | .int i => if 0 ≤ i ∧ i < 2 ^ 64 then some i.toNat else none

/-- Embeds `Serialize for Id<For>` (`src/snowflake.rs`):
`self.id.to_string().serialize(ser)` — always a JSON string. -/
def Id.serializeJson {For : Type} (x : Id For) : Json :=
  .str (u64ToString x.id)

/-- Embeds `Deserialize for Id<For>` (`src/snowflake.rs`): run the
string-or-integer visitor and wrap the `u64`. -/
def Id.deserializeJson {For : Type} (j : Json) : Option (Id For) :=
  (stringOrInteger j).map fun n => ⟨n⟩

/-- `charVal` recovers the digit `digitChar` encodes. -/
theorem charVal_digitChar (d : Nat) (hd : d < 10) :
    charVal (digitChar d) = some d := by
  interval_cases d <;> rfl

/-- A digit character is never the sign character `+`. -/
theorem digitChar_ne_plus (d : Nat) (hd : d < 10) : digitChar d ≠ '+' := by
  interval_cases d <;> decide

/-- `renderLoop` with positive fuel always yields a digit character first. -/
theorem renderLoop_head :
    ∀ fuel n rest, 0 < fuel →
      ∃ d tail, d < 10 ∧ renderLoop fuel n rest = digitChar d :: tail := by
  intro fuel
  induction fuel with
  | zero => intro n rest h; omega
  | succ f ih =>
    intro n rest _
    by_cases hn : n < 10
    · exact ⟨n, rest, hn, by simp [renderLoop, hn]⟩
    · rcases Nat.eq_zero_or_pos f with hf | hf
      · subst hf
        exact ⟨n % 10, rest, Nat.mod_lt n (by norm_num),
          by simp [renderLoop, hn]⟩
      · obtain ⟨d, tail, hd, heq⟩ := ih (n / 10) (digitChar (n % 10) :: rest) hf
        exact ⟨d, tail, hd, by simp [renderLoop, hn, heq]⟩

/-- Feeding the digits emitted by `renderLoop` to `parseDigits` accumulates
exactly `a * 10 ^ numDigits n + n`, provided that value fits in `u64`. -/
theorem parseDigits_renderLoop :
    ∀ fuel n a rest, n < fuel → a * 10 ^ numDigits n + n < 2 ^ 64 →
      parseDigits a (renderLoop fuel n rest) =
        parseDigits (a * 10 ^ numDigits n + n) rest := by
  intro fuel
  induction fuel with
  | zero => intro n a rest h; omega
  | succ f ih =>
    intro n a rest hfuel hbound
    by_cases hn : n < 10
    · have hnd : numDigits n = 1 := by rw [numDigits]; simp [hn]
      rw [hnd, pow_one] at hbound ⊢
      simp only [renderLoop, if_pos hn, parseDigits, charVal_digitChar n hn,
        if_pos hbound]
    · have hnd : numDigits n = numDigits (n / 10) + 1 := by
        rw [numDigits]; simp [hn]
      have hP : 0 < 10 ^ numDigits (n / 10) := pow_pos (by norm_num) _
      have hkey : a * (10 ^ numDigits (n / 10) * 10) + n < 2 ^ 64 := by
        rw [hnd, pow_succ] at hbound; exact hbound
      have hsub : a * 10 ^ numDigits (n / 10) + n / 10 < 2 ^ 64 := by
        have h1 : a * 10 ^ numDigits (n / 10) ≤
            a * (10 ^ numDigits (n / 10) * 10) := by
          apply Nat.mul_le_mul_left
          omega
        have h2 : n / 10 ≤ n := Nat.div_le_self n 10
        omega
      have hlt : n / 10 < f := by
        have : n / 10 < n := Nat.div_lt_self (by omega) (by norm_num)
        omega
      simp only [renderLoop, if_neg hn]
      rw [ih (n / 10) a (digitChar (n % 10) :: rest) hlt hsub]
      have hmod : n % 10 < 10 := Nat.mod_lt n (by norm_num)
      simp only [parseDigits, charVal_digitChar (n % 10) hmod]
      have hacc : (a * 10 ^ numDigits (n / 10) + n / 10) * 10 + n % 10 =
          a * 10 ^ numDigits n + n := by
        rw [hnd, pow_succ, ← mul_assoc]
        have hdm : 10 * (n / 10) + n % 10 = n := Nat.div_add_mod n 10
        generalize a * 10 ^ numDigits (n / 10) = b
        omega
      rw [hacc, if_pos hbound]

/-- Parsing the canonical decimal rendering of a `u64` value recovers it. -/
theorem u64FromStr_renderNat (n : Nat) (hn : n < 2 ^ 64) :
    u64FromStr (renderNat n) = some n := by
  obtain ⟨d, tail, hd, heq⟩ :=
    renderLoop_head (n + 1) n [] (Nat.succ_pos n)
  unfold renderNat
  rw [heq]
  simp only [u64FromStr, if_neg (digitChar_ne_plus d hd)]
  rw [← heq]
  rw [parseDigits_renderLoop (n + 1) n 0 [] (Nat.lt_succ_self n)
    (by simpa using hn)]
  simp [parseDigits]


/-- `GuildFeature::from_str` only succeeds on the exact wire string that
`as_ref` maps the resulting variant back to. -/
theorem GuildFeature.fromStr_asRef :
    ∀ s t, GuildFeature.fromStr s = .ok t → GuildFeature.asRef t = s := by
  intro s t h
  unfold GuildFeature.fromStr at h
  split at h <;> simp_all <;> subst h <;> rfl

/-- `TryFrom<u64> for AuditLogEvent` only succeeds on the exact code that
`From<AuditLogEvent> for u64` maps the resulting variant back to. -/
theorem AuditLogEvent.tryFrom_toWire :
    ∀ n t, AuditLogEvent.tryFrom n = .ok t → AuditLogEvent.toWire t = n := by
  intro n t h
  unfold AuditLogEvent.tryFrom at h
  split at h <;> simp_all <;> subst h <;> rfl

/-- Every `AuditLogEvent` variant decodes back from its own wire code. -/
theorem AuditLogEvent.toWire_tryFrom :
    ∀ v, AuditLogEvent.tryFrom (AuditLogEvent.toWire v) = .ok v := by
  intro v; cases v <;> rfl

/-- The set of codes `AuditLogEvent.tryFrom` accepts is exactly
`auditLogKnownCodes`. -/
theorem AuditLogEvent.tryFrom_isOk_iff :
    ∀ n, (AuditLogEvent.tryFrom n).isOk = true ↔ n ∈ auditLogKnownCodes := by
  intro n
  unfold AuditLogEvent.tryFrom
  split <;> simp_all [auditLogKnownCodes, Except.isOk, Except.toBool]

/-- C1.  Codec round-trip identity: decoding any `u64` as
`IntegerEnum<AuditLogEvent>` and re-encoding it (via `Serialize` /
`From<IntegerEnum<T>> for u64`) yields the original integer, and decoding any
string as `StringEnum<GuildFeature>` and re-encoding it yields the original
string — a matched value encodes via the variant's mapping, an unmatched value
is kept raw and re-emitted verbatim. -/
theorem c1_codec_roundtrip :
    (∀ p : Nat,
        IntegerEnum.serialize AuditLogEvent.toWire
          (IntegerEnum.deserialize AuditLogEvent.tryFrom p) = p) ∧
    (∀ s : String,
        StringEnum.serialize GuildFeature.asRef
          (StringEnum.deserialize GuildFeature.fromStr s) = s) := by
  constructor
  · intro p
    unfold IntegerEnum.deserialize
    cases h : AuditLogEvent.tryFrom p with
    | ok t => simpa [IntegerEnum.serialize] using AuditLogEvent.tryFrom_toWire p t h
    | error e => simp [IntegerEnum.serialize]
  · intro s
    unfold StringEnum.deserialize
    cases h : GuildFeature.fromStr s with
    | ok t => simpa [StringEnum.serialize] using GuildFeature.fromStr_asRef s t h
    | error e => simp [StringEnum.serialize]

/-- C2.  Unknown-value tolerance: any wire primitive the mapping table does
not recognize decodes (totally, never failing — `deserialize` returns a value
for every input by construction) to the raw fallback state, on which
`try_unwrap` returns the error carrying the original primitive unchanged
(`ParseEnumError` holding the string, `EnumFromIntegerError` holding the
`u64`); concretely for `"FLOOP"` against `GuildFeature` (which re-encodes to
`"FLOOP"`) and `9999` against `AuditLogEvent`. -/
theorem c2_unknown_value_tolerance :
    (∀ s : String, (GuildFeature.fromStr s).isOk = false →
        StringEnum.deserialize GuildFeature.fromStr s = .raw s ∧
        (StringEnum.deserialize GuildFeature.fromStr s).tryUnwrap =
          .error ⟨s⟩) ∧
    (∀ n : Nat, (AuditLogEvent.tryFrom n).isOk = false →
        IntegerEnum.deserialize AuditLogEvent.tryFrom n = .raw n ∧
        (IntegerEnum.deserialize AuditLogEvent.tryFrom n).tryUnwrap =
          .error ⟨n⟩) ∧
    StringEnum.deserialize GuildFeature.fromStr "FLOOP" = .raw "FLOOP" ∧
    StringEnum.serialize GuildFeature.asRef
      (StringEnum.deserialize GuildFeature.fromStr "FLOOP") = "FLOOP" ∧
    IntegerEnum.deserialize AuditLogEvent.tryFrom 9999 = .raw 9999 := by
  refine ⟨?_, ?_, rfl, rfl, rfl⟩
  · intro s h
    unfold StringEnum.deserialize
    cases hf : GuildFeature.fromStr s with
    | ok t => rw [hf] at h; simp [Except.isOk, Except.toBool] at h
    | error e => exact ⟨rfl, rfl⟩
  · intro n h
    unfold IntegerEnum.deserialize
    cases hf : AuditLogEvent.tryFrom n with
    | ok t => rw [hf] at h; simp [Except.isOk, Except.toBool] at h
    | error e => exact ⟨rfl, rfl⟩

/-- Witness for C2 at the concrete unknown primitives `"FLOOP"` and `9999`. -/
theorem c2_unknown_value_tolerance_witness :
    (StringEnum.deserialize GuildFeature.fromStr "FLOOP" = .raw "FLOOP" ∧
      (StringEnum.deserialize GuildFeature.fromStr "FLOOP").tryUnwrap =
        .error ⟨"FLOOP"⟩) ∧
    (IntegerEnum.deserialize AuditLogEvent.tryFrom 9999 = .raw 9999 ∧
      (IntegerEnum.deserialize AuditLogEvent.tryFrom 9999).tryUnwrap =
        .error ⟨9999⟩) :=
  ⟨c2_unknown_value_tolerance.1 "FLOOP" rfl,
   c2_unknown_value_tolerance.2.1 9999 rfl⟩

/-- C3.  Known-variant mapping bijectivity for `AuditLogEvent`: every variant
survives the decode-then-strictly-interpret round trip; the accepted codes are
exactly 1, 10–15, 20–28, 30–32, 40–42, 50–52, 60–62, 72–75, 80–82; code 31
decodes to `RoleUpdate`; 9999 decodes to the raw fallback whose strict
interpretation fails carrying 9999. -/
theorem c3_audit_log_bijectivity :
    (∀ v, (IntegerEnum.deserialize AuditLogEvent.tryFrom
        (AuditLogEvent.toWire v)).tryUnwrap = .ok v) ∧
    (∀ n, (AuditLogEvent.tryFrom n).isOk = true ↔ n ∈ auditLogKnownCodes) ∧
    AuditLogEvent.tryFrom 31 = .ok .roleUpdate ∧
    IntegerEnum.deserialize AuditLogEvent.tryFrom 9999 = .raw 9999 ∧
    (IntegerEnum.deserialize AuditLogEvent.tryFrom 9999).tryUnwrap =
      .error ⟨9999⟩ := by
  refine ⟨?_, AuditLogEvent.tryFrom_isOk_iff, rfl, rfl, rfl⟩
  intro v
  unfold IntegerEnum.deserialize
  rw [AuditLogEvent.toWire_tryFrom v]
  rfl

/-- Witness for C3 at the concrete variant `RoleUpdate` and code 31. -/
theorem c3_audit_log_bijectivity_witness :
    (IntegerEnum.deserialize AuditLogEvent.tryFrom
      (AuditLogEvent.toWire .roleUpdate)).tryUnwrap = .ok .roleUpdate ∧
    ((AuditLogEvent.tryFrom 31).isOk = true ↔ 31 ∈ auditLogKnownCodes) :=
  ⟨c3_audit_log_bijectivity.1 .roleUpdate,
   c3_audit_log_bijectivity.2.1 31⟩

/-- C4.  Bitflag unknown-bit preservation: a decimal permissions string whose
value has a bit set outside the known `Permissions` flag positions makes
`Permissions::from_str` fail with `ParseEnumError` carrying the original
string, so `StringEnum<Permissions>` decoding falls back to the raw state and
re-encoding (under any encoder for the parsed side) reproduces the original
string — unknown set bits are never masked away. -/
theorem c4_unknown_bits_preserved :
    ∀ (s : String) (n : Nat), u64FromString s = some n →
      n &&& (Permissions.allBits ^^^ (2 ^ 64 - 1)) ≠ 0 →
      Permissions.fromStr s = .error ⟨s⟩ ∧
      StringEnum.deserialize Permissions.fromStr s = .raw s ∧
      ∀ enc : Nat → String,
        StringEnum.serialize enc
          (StringEnum.deserialize Permissions.fromStr s) = s := by
  intro s n hparse hbit
  have herr : Permissions.fromStr s = .error ⟨s⟩ := by
    simp only [Permissions.fromStr, Permissions.fromBits, hparse,
      if_neg hbit]
  refine ⟨herr, ?_, ?_⟩
  · unfold StringEnum.deserialize
    rw [herr]
  · intro enc
    unfold StringEnum.deserialize
    rw [herr]
    rfl

/-- Witness for C4 at the string `"8589934592"`, whose value `2 ^ 33` sets
only the one bit the flag table skips. -/
theorem c4_unknown_bits_preserved_witness :
    u64FromString "8589934592" = some 8589934592 ∧
    8589934592 &&& (Permissions.allBits ^^^ (2 ^ 64 - 1)) ≠ 0 ∧
    Permissions.fromStr "8589934592" = .error ⟨"8589934592"⟩ ∧
    StringEnum.deserialize Permissions.fromStr "8589934592" =
      .raw "8589934592" :=
  ⟨rfl, by decide,
   (c4_unknown_bits_preserved "8589934592" 8589934592 rfl (by decide)).1,
   (c4_unknown_bits_preserved "8589934592" 8589934592 rfl (by decide)).2.1⟩

/-- C10.  `custom` never re-interprets its argument against the mapping
table: the wrapper is in the raw state, and `try_unwrap` errors carrying the
argument, even when the argument is exactly a known variant's wire value
(`"BANNER"`, `31`). -/
theorem c10_custom_never_reinterprets :
    (∀ s : String,
        (StringEnum.custom s : StringEnum GuildFeature).tryUnwrap =
          .error ⟨s⟩) ∧
    (∀ n : Nat,
        (IntegerEnum.custom n : IntegerEnum AuditLogEvent).tryUnwrap =
          .error ⟨n⟩) ∧
    (StringEnum.custom "BANNER" : StringEnum GuildFeature).tryUnwrap =
      .error ⟨"BANNER"⟩ ∧
    (IntegerEnum.custom 31 : IntegerEnum AuditLogEvent).tryUnwrap =
      .error ⟨31⟩ :=
  ⟨fun _ => rfl, fun _ => rfl, rfl, rfl⟩

/-- A value shifted left by 22 and truncated to 64 bits has its low 22 bits
zero. -/
theorem shifted_low_bits_zero (d : Nat) :
    ((d <<< 22) % 2 ^ 64) % 2 ^ 22 = 0 := by
  rw [Nat.shiftLeft_eq]
  have h : (2 : Nat) ^ 64 = 2 ^ 42 * 2 ^ 22 := by norm_num
  rw [h, Nat.mul_mod_mul_right]
  exact Nat.mul_mod_left _ _

/-- C5 (counterexample).  At the calendar instant `EPOCH + 2^42` milliseconds
— exactly the first timestamp the claim says must be rejected as overflowing
the 64-bit layout — `from_date_time` does not fail: it silently truncates the
shifted value and returns the identifier 0. -/
theorem c5_overflow_not_rejected :
    (1420070400000 + 2 ^ 42 : Int) - 1420070400000 = 2 ^ 42 ∧
    Snowflake.fromDateTime (1420070400000 + 2 ^ 42) ≠ none ∧
    Snowflake.fromDateTime (1420070400000 + 2 ^ 42) = some 0 := by
  refine ⟨by norm_num, ?_, by decide⟩
  decide

/-- C5 (amended).  `from_date_time` fails exactly when the timestamp predates
the custom epoch (including every instant before the Unix epoch); for every
timestamp at or after the epoch it succeeds, returning
`((ms - EPOCH) << 22) % 2^64` — a value with `ms - EPOCH ≥ 2^42` is silently
truncated rather than rejected — and every successful result has its low 22
worker/process/sequence bits zero. -/
theorem c5_from_date_time_domain :
    ∀ ms : Int,
      (Snowflake.fromDateTime ms = none ↔ ms < 1420070400000) ∧
      (1420070400000 ≤ ms →
        Snowflake.fromDateTime ms =
          some (((ms.toNat - 1420070400000) <<< 22) % 2 ^ 64)) ∧
      (∀ raw, Snowflake.fromDateTime ms = some raw → raw % 2 ^ 22 = 0) := by
  intro ms
  unfold Snowflake.fromDateTime Snowflake.EPOCH
  refine ⟨?_, ?_, ?_⟩
  · split_ifs with h1 h2 <;> simp <;> omega
  · intro hge
    have h1 : ¬ ms < 0 := by omega
    have h2 : ¬ ms.toNat < 1420070400000 := by omega
    rw [if_neg h1, if_neg h2]
  · intro raw hraw
    by_cases h1 : ms < 0
    · rw [if_pos h1] at hraw
      cases hraw
    · rw [if_neg h1] at hraw
      by_cases h2 : ms.toNat < 1420070400000
      · rw [if_pos h2] at hraw
        cases hraw
      · rw [if_neg h2] at hraw
        rw [← Option.some.inj hraw]
        exact shifted_low_bits_zero _

/-- Witness for the amended C5 at instants just below and just above the
custom epoch. -/
theorem c5_from_date_time_domain_witness :
    (Snowflake.fromDateTime 1419999999999 = none ↔
      (1419999999999 : Int) < 1420070400000) ∧
    Snowflake.fromDateTime 1420070400001 =
      some ((((1420070400001 : Int).toNat - 1420070400000) <<< 22) %
        2 ^ 64) ∧
    (4194304 : Nat) % 2 ^ 22 = 0 :=
  ⟨(c5_from_date_time_domain 1419999999999).1,
   (c5_from_date_time_domain 1420070400001).2.1 (by norm_num),
   (c5_from_date_time_domain 1420070400001).2.2 4194304 (by decide)⟩

/-- C6.  Timestamp inverse: for every calendar instant at or after the custom
epoch and within the representable range (`ms - EPOCH < 2^42`),
`from_date_time` succeeds and `timestamp` on the resulting identifier
recovers the instant exactly, at millisecond granularity. -/
theorem c6_timestamp_inverse :
    ∀ ms : Int, 1420070400000 ≤ ms → ms - 1420070400000 < 2 ^ 42 →
      (Snowflake.fromDateTime ms).map
        (fun raw => (Snowflake.timestampMillis raw : Int)) = some ms := by
  intro ms h1 h2
  have h0 : ¬ ms < 0 := by omega
  have hE : ¬ ms.toNat < 1420070400000 := by omega
  unfold Snowflake.fromDateTime Snowflake.timestampMillis Snowflake.EPOCH
  rw [if_neg h0, if_neg hE]
  simp only [Option.map_some']
  congr 1
  have hdlt : ms.toNat - 1420070400000 < 2 ^ 42 := by omega
  have hsh : ((ms.toNat - 1420070400000) <<< 22) % 2 ^ 64 =
      (ms.toNat - 1420070400000) * 2 ^ 22 := by
    rw [Nat.shiftLeft_eq]
    apply Nat.mod_eq_of_lt
    calc (ms.toNat - 1420070400000) * 2 ^ 22
        < 2 ^ 42 * 2 ^ 22 := by
          exact mul_lt_mul_of_pos_right hdlt (by norm_num)
      _ = 2 ^ 64 := by norm_num
  rw [hsh, Nat.shiftRight_eq_div_pow,
    Nat.mul_div_cancel _ (by positivity : 0 < 2 ^ 22)]
  omega

/-- Witness for C6 at the concrete instant 2016-04-30T11:18:25.796Z. -/
theorem c6_timestamp_inverse_witness :
    (Snowflake.fromDateTime 1462015105796).map
      (fun raw => (Snowflake.timestampMillis raw : Int)) =
      some 1462015105796 :=
  c6_timestamp_inverse 1462015105796 (by norm_num) (by norm_num)

/-- C7.  Identifier string round-trip and dual-format decode: rendering any
`u64` to its decimal string parses back to the same value (both through
`u64::from_str` and `FromStr for Id`); serde serialization always produces
the decimal JSON string; deserialization accepts both that JSON string and
the JSON integer, yielding the identifier with the same raw value. -/
theorem c7_id_string_roundtrip :
    ∀ (For : Type) (n : Nat), n < 2 ^ 64 →
      u64FromString (u64ToString n) = some n ∧
      (Id.fromStr (u64ToString n) : Option (Id For)) = some ⟨n⟩ ∧
      Id.serializeJson (Id.ofU64 n : Id For) = .str (u64ToString n) ∧
      Id.deserializeJson (Id.serializeJson (Id.ofU64 n : Id For)) =
        some (Id.ofU64 n : Id For) ∧
      Id.deserializeJson (.int n) = some (Id.ofU64 n : Id For) := by
  intro For n hn
  have hp : u64FromString (u64ToString n) = some n := by
    unfold u64FromString u64ToString
    exact u64FromStr_renderNat n hn
  refine ⟨hp, ?_, rfl, ?_, ?_⟩
  · unfold Id.fromStr
    rw [hp]
    rfl
  · simp only [Id.deserializeJson, Id.serializeJson, stringOrInteger,
      Id.ofU64, hp, Option.map_some']
  · simp only [Id.deserializeJson, stringOrInteger, Id.ofU64]
    rw [if_pos ⟨by positivity, by exact_mod_cast hn⟩]
    simp

/-- Witness for C7 at the raw value 41771983423143936. -/
theorem c7_id_string_roundtrip_witness :
    u64FromString (u64ToString 41771983423143936) =
      some 41771983423143936 ∧
    (Id.fromStr (u64ToString 41771983423143936) : Option (Id Unit)) =
      some ⟨41771983423143936⟩ ∧
    Id.serializeJson (Id.ofU64 41771983423143936 : Id Unit) =
      .str (u64ToString 41771983423143936) ∧
    Id.deserializeJson
      (Id.serializeJson (Id.ofU64 41771983423143936 : Id Unit)) =
      some (Id.ofU64 41771983423143936 : Id Unit) ∧
    Id.deserializeJson (.int 41771983423143936) =
      some (Id.ofU64 41771983423143936 : Id Unit) :=
  c7_id_string_roundtrip Unit 41771983423143936 (by norm_num)

/-- C8 (counterexample).  The raw value 41771983423143937 named by the claim
does not have the asserted fields: its increment is 1 (not 7), its worker id
is 0 (not 1), and its timestamp is not 2016-04-30T11:18:25.796Z. -/
theorem c8_wrong_constant :
    Snowflake.increment 41771983423143937 = 1 ∧
    Snowflake.workerId 41771983423143937 = 0 ∧
    Snowflake.increment 41771983423143937 ≠ 7 ∧
    Snowflake.workerId 41771983423143937 ≠ 1 ∧
    Snowflake.timestampMillis 41771983423143937 ≠
      civilToMillis 2016 4 30 11 18 25 796 := by
  refine ⟨by decide, by decide, by decide, by decide, by decide⟩

/-- C8 (amended).  Field extraction is total and matches the fixed bit
layout: for every 64-bit raw value the millisecond instant
`(raw >> 22) + EPOCH` fits an `i64` (so the internal conversion inside
`timestamp()` always succeeds), and the worker/process fields fit `u8` and
the increment fits `u16` (so the `as` casts are lossless); for the concrete
raw value 175928847299117063 — the constant the crate's own test decodes —
the fields are timestamp 2016-04-30T11:18:25.796Z, worker id 1, process id 0
and increment 7. -/
theorem c8_field_extraction :
    (∀ raw : Nat, raw < 2 ^ 64 →
        Snowflake.timestampMillis raw =
          raw / 2 ^ 22 + 1420070400000 ∧
        Snowflake.timestampMillis raw < 2 ^ 63 ∧
        Snowflake.workerId raw < 2 ^ 8 ∧
        Snowflake.processId raw < 2 ^ 8 ∧
        Snowflake.increment raw < 2 ^ 16) ∧
    Snowflake.timestampMillis 175928847299117063 =
      civilToMillis 2016 4 30 11 18 25 796 ∧
    Snowflake.workerId 175928847299117063 = 1 ∧
    Snowflake.processId 175928847299117063 = 0 ∧
    Snowflake.increment 175928847299117063 = 7 := by
  refine ⟨?_, by decide, by decide, by decide, by decide⟩
  intro raw hraw
  unfold Snowflake.timestampMillis Snowflake.workerId Snowflake.processId
    Snowflake.increment Snowflake.EPOCH
  rw [Nat.shiftRight_eq_div_pow, Nat.shiftRight_eq_div_pow]
  refine ⟨rfl, ?_, ?_, ?_, ?_⟩
  · have : raw / 2 ^ 22 < 2 ^ 42 := by
      apply Nat.div_lt_of_lt_mul
      calc raw < 2 ^ 64 := hraw
        _ = 2 ^ 22 * 2 ^ 42 := by norm_num
    omega
  · have h1 : raw &&& 0x3E0000 ≤ 0x3E0000 := Nat.and_le_right
    have h2 : (raw &&& 0x3E0000) / 2 ^ 17 ≤ 0x3E0000 / 2 ^ 17 :=
      Nat.div_le_div_right h1
    omega
  · have h1 : raw &&& 0x1F000 ≤ 0x1F000 := Nat.and_le_right
    have h2 : (raw &&& 0x1F000) / 2 ^ 12 ≤ 0x1F000 / 2 ^ 12 :=
      Nat.div_le_div_right h1
    omega
  · have h1 : raw &&& 0xFFF ≤ 0xFFF := Nat.and_le_right
    omega

/-- Witness for the amended C8 at the test constant 175928847299117063. -/
theorem c8_field_extraction_witness :
    Snowflake.timestampMillis 175928847299117063 =
      175928847299117063 / 2 ^ 22 + 1420070400000 ∧
    Snowflake.timestampMillis 175928847299117063 < 2 ^ 63 ∧
    Snowflake.workerId 175928847299117063 < 2 ^ 8 ∧
    Snowflake.processId 175928847299117063 < 2 ^ 8 ∧
    Snowflake.increment 175928847299117063 < 2 ^ 16 :=
  c8_field_extraction.1 175928847299117063 (by norm_num)

/-- C9.  The kind tag carries no runtime weight and erasure is lossless:
equality, ordering and the hashed data of identifiers depend only on the raw
value; `Id<T> → AnyId` and `AnyId → Id<T>` preserve the raw value exactly and
invert each other; two identifiers of different kinds built from the same raw
value are equal once the tag is erased. -/
theorem c9_kind_tag_erased :
    (∀ (For : Type) (a b : Id For),
        (Id.beq a b = true ↔ a.id = b.id) ∧
        Id.cmp a b = compare a.id b.id ∧
        (a.id = b.id → Id.hashData a = Id.hashData b)) ∧
    (∀ (For : Type) (n : Nat),
        Id.beq (Id.ofU64 n : Id For) (Id.ofU64 n) = true ∧
        (Id.toAny (Id.ofU64 n : Id For)).id = n ∧
        ((AnyId.mk n).toId : Id For).id = n) ∧
    (∀ (For : Type) (x : Id For), (Id.toAny x).toId = x) ∧
    (∀ (For : Type) (y : AnyId), Id.toAny (y.toId : Id For) = y) ∧
    (∀ (A B : Type) (n : Nat),
        Id.toAny (Id.ofU64 n : Id A) = Id.toAny (Id.ofU64 n : Id B)) := by
  refine ⟨?_, ?_, ?_, ?_, ?_⟩
  · intro For a b
    refine ⟨?_, rfl, fun h => ?_⟩
    · unfold Id.beq
      exact beq_iff_eq
    · unfold Id.hashData
      exact h
  · intro For n
    exact ⟨by simp [Id.beq, Id.ofU64], rfl, rfl⟩
  · intro For x
    cases x
    rfl
  · intro For y
    cases y
    rfl
  · intro A B n
    rfl

/-- Witness for C9 at the raw value 42 with two distinct kind tags. -/
theorem c9_kind_tag_erased_witness :
    (Id.beq (⟨42⟩ : Id Unit) ⟨42⟩ = true ↔
      (⟨42⟩ : Id Unit).id = (⟨42⟩ : Id Unit).id) ∧
    Id.toAny (Id.ofU64 42 : Id Bool) = Id.toAny (Id.ofU64 42 : Id Unit) :=
  ⟨(c9_kind_tag_erased.1 Unit ⟨42⟩ ⟨42⟩).1,
   c9_kind_tag_erased.2.2.2.2 Bool Unit 42⟩

end Discord2
